import Mathlib

/-!
Verification of `mvn-settings-add-snapshot.py`: a one-shot script that reads
`~/.m2/settings.xml`, appends a `<server>` credential entry (id `ossrh`,
username/password from environment variables) to the first `servers` element,
and writes the result to `~/.m2/snapshot-settings.xml`.

The DOM tree of `xml.dom.minidom` is embedded as `XmlNode`; element lookup
(`getElementsByTagName`, a preorder walk over all descendants) and in-place
mutation (`appendChild` on a node found inside the tree) are embedded as
functional transformations of the tree, each given by a node-level function
(suffix `N`) and a forest-level function (suffix `L`) in mutual structural
recursion.  The script's observable behaviour is collected in a `RunTrace`:
the lines printed to standard output, the process exit code, whether the
input file was opened/parsed, and the document written to the output file
(`none` when no output file is produced).
-/

/-- A DOM node as used by the script: an element with a tag, attributes and
child nodes, or a text node. -/
inductive XmlNode : Type where
  | element (tag : String) (attrs : List (String × String)) (children : List XmlNode)
  | text (data : String)

namespace XmlNode

mutual

/-- All elements with tag `q` at or below one node, in document (preorder)
order: the node itself when it matches, followed by the matches among its
descendants. -/
def gebtnN (q : String) : XmlNode → List XmlNode
  | element t a ch => (if t = q then [element t a ch] else []) ++ gebtnL q ch
  | text _ => []

/-- `getElementsByTagName q` over a forest of sibling nodes: all descendant
elements whose tag is `q`, in document (preorder) order.  Mirrors minidom's
`_get_elements_by_tagName_helper`, which visits each child, records it when it
is a matching element, and recurses into it. -/
def gebtnL (q : String) : List XmlNode → List XmlNode
  | [] => []
  | n :: rest => gebtnN q n ++ gebtnL q rest

end

mutual

/-- Replace the first element with tag `q` at or below one node (document
order) by `f` applied to it; `none` when no such element exists. -/
def modifyFirstN (q : String) (f : XmlNode → XmlNode) : XmlNode → Option XmlNode
  | element t a ch =>
      if t = q then some (f (element t a ch))
      else
        match modifyFirstL q f ch with
        | some ch2 => some (element t a ch2)
        | none => none
  | text _ => none

/-- Replace the first element with tag `q`, in document (preorder) order, in a
forest, by `f` applied to it; `none` when no such element exists.  This is the
functional rendering of mutating, in place, the node
`getElementsByTagName(q)[0]`. -/
def modifyFirstL (q : String) (f : XmlNode → XmlNode) : List XmlNode → Option (List XmlNode)
  | [] => none
  | n :: rest =>
      match modifyFirstN q f n with
      | some n2 => some (n2 :: rest)
      | none =>
          match modifyFirstL q f rest with
          | some rest2 => some (n :: rest2)
          | none => none

end

/-- `appendChild`: append `c` as the last child of an element (no effect on a
text node; the script only ever applies it to elements). -/
def appendChild (c : XmlNode) : XmlNode → XmlNode
  | element t a ch => element t a (ch ++ [c])
  | text d => text d

mutual

/-- `extendsN old new`: the node `new` is the node `old` with extra children
possibly appended (recursively) at the end of element child lists; tag,
attributes and text data are unchanged. -/
def extendsN : XmlNode → XmlNode → Bool
  | element t a ch, element t2 a2 ch2 => t == t2 && a == a2 && extendsL ch ch2
  | text s, text s2 => s == s2
  | _, _ => false

/-- `extendsL old new`: every node of the forest `old` is present, unchanged
and in the same position, in the forest `new`; `new` may carry extra children
appended at the end of any element's child list.  This is the frame relation
for a transformation that only ever appends children. -/
def extendsL : List XmlNode → List XmlNode → Bool
  | [], _ => true
  | _ :: _, [] => false
  | x :: xs, y :: ys => extendsN x y && extendsL xs ys

end

/-- Number of descendant elements with tag `q` in a forest. -/
def countTag (q : String) (ns : List XmlNode) : Nat := (gebtnL q ns).length

/-- Is this node an element with tag `q`?  (Used to talk about the *direct*
children of an element, as opposed to the descendant search `gebtnL`.) -/
def isElementWithTag (q : String) : XmlNode → Bool
  | element t _ _ => t == q
  | text _ => false

end XmlNode

/-- The `<server>` element built by lines 43–60 of the script: an element with
children `id` (wrapping the text `"ossrh"`), `username` and `password`
(wrapping the values of the two environment variables), appended in that
order. -/
def sonatypeServerNode (u p : String) : XmlNode :=
  .element "server" []
    [.element "id" [] [.text "ossrh"],
     .element "username" [] [.text u],
     .element "password" [] [.text p]]

/-- Lines 36–41 and 62 of the script, acting on the `settings` element:
`serversNodes = settings.getElementsByTagName("servers")`; if empty, create a
fresh `servers` element and append it to `settings`, then append the server
entry to it; otherwise append the server entry to `serversNodes[0]` (the first
`servers` descendant in document order), in place. -/
def patchSettings (server : XmlNode) : XmlNode → XmlNode
  | .element t a ch =>
      match XmlNode.modifyFirstL "servers" (XmlNode.appendChild server) ch with
      | some ch2 => .element t a ch2
      | none => .element t a (ch ++ [.element "servers" [] [server]])
  | .text d => .text d

/-- Observable behaviour of one run of the script: lines printed to standard
output, process exit code, whether the input file was opened and parsed, and
the document written to the output file (`none` when no output file is
written). -/
structure RunTrace where
  stdoutLines : List String
  exitCode : Nat
  readsInput : Bool
  output : Option (List XmlNode)

/-- The whole script, lines 27–67.  `env` is the process environment
(`os.environ`, `none` meaning the key is absent, so that a lookup of an absent
key is a fatal `KeyError`); `input` is the parse of `~/.m2/settings.xml`
(`none` when the file is missing or malformed, a fatal error).  A document is
the list of the top-level nodes of the parsed file.

* Line 27: read `TRAVIS_SECURE_ENV_VARS`; `KeyError` (exit 1) when unset.
* Lines 27–29: when its value is `"false"`, print the skip message and
  `sys.exit()` (exit 0) without touching any file.
* Line 33: parse the input file; fatal when missing/malformed.
* Line 34: `getElementsByTagName("settings")[0]`; `IndexError` when no
  `settings` element exists.
* Lines 53/58: read `SONATYPE_USERNAME` / `SONATYPE_PASSWORD`; `KeyError`
  when unset.
* Lines 36–62: locate/create the `servers` container inside the first
  `settings` element and append the new `server` entry (`patchSettings`).
* Lines 64–67: serialize and write the output file.

The final `none` branch of `modifyFirstL` is unreachable: the guard on line 34
guarantees a `settings` element exists (`modifyFirstL_eq_none_iff`). -/
def run (env : String → Option String) (input : Option (List XmlNode)) : RunTrace :=
  match env "TRAVIS_SECURE_ENV_VARS" with
  | none => ⟨[], 1, false, none⟩
  | some gate =>
      if gate = "false" then
        ⟨["no secure env vars available, skipping deployment"], 0, false, none⟩
      else
        match input with
        | none => ⟨[], 1, true, none⟩
        | some doc =>
            match XmlNode.gebtnL "settings" doc with
            | [] => ⟨[], 1, true, none⟩
            | _ :: _ =>
                match env "SONATYPE_USERNAME" with
                | none => ⟨[], 1, true, none⟩
                | some u =>
                    match env "SONATYPE_PASSWORD" with
                    | none => ⟨[], 1, true, none⟩
                    | some p =>
                        match XmlNode.modifyFirstL "settings"
                            (patchSettings (sonatypeServerNode u p)) doc with
                        | some doc2 => ⟨[], 0, true, some doc2⟩
                        | none => ⟨[], 1, true, none⟩

/-- Path of the input file, `homedir + '/.m2/settings.xml'`. -/
def settingsPath (homedir : String) : String := homedir ++ "/.m2/settings.xml"

/-- Path of the output file, `homedir + '/.m2/snapshot-settings.xml'`. -/
def outputPath (homedir : String) : String := homedir ++ "/.m2/snapshot-settings.xml"

/-- The script seen at the filesystem level.  `fs` maps a path to the content
of the file there (`none` = no file).  `parse` and `serialize` are the XML
parser and the serializer `Document.toxml` (kept abstract: the claims under
verification do not depend on the concrete textual format).  Returns the
filesystem after the run together with the run's trace: the output file is
(over)written exactly when the run reaches the final write. -/
def runFS (env : String → Option String) (homedir : String)
    (parse : String → Option (List XmlNode)) (serialize : List XmlNode → String)
    (fs : String → Option String) : (String → Option String) × RunTrace :=
  let tr := run env ((fs (settingsPath homedir)).bind parse)
  match tr.output with
  | some doc2 =>
      (fun path => if path = outputPath homedir then some (serialize doc2) else fs path, tr)
  | none => (fs, tr)

/-- A concrete environment with all three variables set. -/
def envAll : String → Option String := fun k =>
  if k = "TRAVIS_SECURE_ENV_VARS" then some "true"
  else if k = "SONATYPE_USERNAME" then some "u"
  else if k = "SONATYPE_PASSWORD" then some "p"
  else none

/-- A concrete environment: secrets present but `TRAVIS_SECURE_ENV_VARS`
absent. -/
def envNoGate : String → Option String := fun k =>
  if k = "SONATYPE_USERNAME" then some "u"
  else if k = "SONATYPE_PASSWORD" then some "p"
  else none

/-- A concrete environment with `TRAVIS_SECURE_ENV_VARS=false` and no
secrets. -/
def envSkip : String → Option String := fun k =>
  if k = "TRAVIS_SECURE_ENV_VARS" then some "false" else none

/-- A concrete environment where `SONATYPE_USERNAME` is missing. -/
def envNoUser : String → Option String := fun k =>
  if k = "TRAVIS_SECURE_ENV_VARS" then some "true" else none

/-- `envAll` with an extra, unrelated variable. -/
def envAllPlus : String → Option String := fun k =>
  if k = "UNRELATED_VAR" then some "x" else envAll k

/-- A minimal input document: a bare `<settings/>` root. -/
def docMinimal : List XmlNode := [.element "settings" [] []]

/-- An input whose `settings` element has no `servers` *child*, but does have
a `servers` element nested strictly deeper (inside a `profiles` child). -/
def docNestedServers : List XmlNode :=
  [.element "settings" []
    [.element "profiles" []
      [.element "servers" [] []]]]

theorem gebtnL_append (q : String) (xs ys : List XmlNode) :
    XmlNode.gebtnL q (xs ++ ys) = XmlNode.gebtnL q xs ++ XmlNode.gebtnL q ys := by
  induction xs with
  | nil => simp [XmlNode.gebtnL]
  | cons x xs ih => simp [XmlNode.gebtnL, ih]

theorem nodeList_induction (P : List XmlNode → Prop)
    (h0 : P [])
    (hel : ∀ t a ch rest, P ch → P rest → P (XmlNode.element t a ch :: rest))
    (htx : ∀ d rest, P rest → P (XmlNode.text d :: rest)) : ∀ ns, P ns := by
  have key : ∀ n ns, sizeOf ns ≤ n → P ns := by
    intro n
    induction n with
    | zero =>
        intro ns h
        cases ns with
        | nil => exact h0
        | cons x xs => simp [List.cons.sizeOf_spec] at h
    | succ n ih =>
        intro ns h
        cases ns with
        | nil => exact h0
        | cons x xs =>
            cases x with
            | element t a ch =>
                apply hel
                · apply ih
                  simp [List.cons.sizeOf_spec, XmlNode.element.sizeOf_spec] at h
                  omega
                · apply ih
                  simp [List.cons.sizeOf_spec] at h
                  omega
            | text d =>
                apply htx
                apply ih
                simp [List.cons.sizeOf_spec] at h
                omega
  exact fun ns => key (sizeOf ns) ns le_rfl

theorem modifyFirstL_eq_none_iff (q : String) (f : XmlNode → XmlNode) :
    ∀ ns, XmlNode.modifyFirstL q f ns = none ↔ XmlNode.gebtnL q ns = [] := by
  apply nodeList_induction
  · simp [XmlNode.modifyFirstL, XmlNode.gebtnL]
  · intro t a ch rest ihch ihrest
    by_cases htq : t = q
    · simp [XmlNode.modifyFirstL, XmlNode.modifyFirstN, XmlNode.gebtnL,
        XmlNode.gebtnN, htq]
    · cases hch : XmlNode.modifyFirstL q f ch with
      | some ch2 =>
          simp [XmlNode.modifyFirstL, XmlNode.modifyFirstN, XmlNode.gebtnL,
            XmlNode.gebtnN, htq, hch]
          intro h0
          rw [ihch.2 h0] at hch
          exact Option.noConfusion hch
      | none =>
          cases hrest : XmlNode.modifyFirstL q f rest with
          | some rest2 =>
              simp [XmlNode.modifyFirstL, XmlNode.modifyFirstN, XmlNode.gebtnL,
                XmlNode.gebtnN, htq, hch, hrest]
              intro _ h0
              rw [ihrest.2 h0] at hrest
              exact Option.noConfusion hrest
          | none =>
              simp [XmlNode.modifyFirstL, XmlNode.modifyFirstN, XmlNode.gebtnL,
                XmlNode.gebtnN, htq, hch, hrest]
              exact ⟨ihch.1 hch, ihrest.1 hrest⟩
  · intro d rest ihrest
    cases hrest : XmlNode.modifyFirstL q f rest with
    | some rest2 =>
        simp [XmlNode.modifyFirstL, XmlNode.modifyFirstN, XmlNode.gebtnL,
          XmlNode.gebtnN, hrest]
        intro h0
        rw [ihrest.2 h0] at hrest
        exact Option.noConfusion hrest
    | none =>
        simp [XmlNode.modifyFirstL, XmlNode.modifyFirstN, XmlNode.gebtnL,
          XmlNode.gebtnN, hrest]
        exact ihrest.1 hrest

theorem extendsL_refl : ∀ ns, XmlNode.extendsL ns ns = true := by
  apply nodeList_induction
  · simp [XmlNode.extendsL]
  · intro t a ch rest ihch ihrest
    simp [XmlNode.extendsL, XmlNode.extendsN, ihch, ihrest]
  · intro d rest ihrest
    simp [XmlNode.extendsL, XmlNode.extendsN, ihrest]

theorem extendsN_refl (n : XmlNode) : XmlNode.extendsN n n = true := by
  cases n with
  | element t a ch => simp [XmlNode.extendsN, extendsL_refl]
  | text d => simp [XmlNode.extendsN]

theorem extendsL_append_left (xs ys : List XmlNode) :
    XmlNode.extendsL xs (xs ++ ys) = true := by
  induction xs with
  | nil => simp [XmlNode.extendsL]
  | cons x xs ih =>
      cases x <;> simp [XmlNode.extendsL, extendsN_refl, ih]

theorem appendChild_extends (c e : XmlNode) :
    XmlNode.extendsN e (XmlNode.appendChild c e) = true := by
  cases e with
  | element t a ch =>
      simp [XmlNode.appendChild, XmlNode.extendsN, extendsL_append_left]
  | text d => simp [XmlNode.appendChild, XmlNode.extendsN]

theorem modifyFirstL_extendsL (q : String) (f : XmlNode → XmlNode)
    (hf : ∀ e, XmlNode.extendsN e (f e) = true) :
    ∀ ns, ∀ ns2, XmlNode.modifyFirstL q f ns = some ns2 →
      XmlNode.extendsL ns ns2 = true := by
  apply nodeList_induction
    (P := fun ns => ∀ ns2, XmlNode.modifyFirstL q f ns = some ns2 →
      XmlNode.extendsL ns ns2 = true)
  · intro ns2 h
    simp [XmlNode.modifyFirstL] at h
  · intro t a ch rest ihch ihrest ns2 h
    by_cases htq : t = q
    · subst htq
      simp [XmlNode.modifyFirstL, XmlNode.modifyFirstN] at h
      subst h
      simp [XmlNode.extendsL, hf, extendsL_refl]
    · cases hch : XmlNode.modifyFirstL q f ch with
      | some ch2 =>
          simp [XmlNode.modifyFirstL, XmlNode.modifyFirstN, htq, hch] at h
          subst h
          simp [XmlNode.extendsL, XmlNode.extendsN, ihch ch2 hch, extendsL_refl]
      | none =>
          cases hrest : XmlNode.modifyFirstL q f rest with
          | some rest2 =>
              simp [XmlNode.modifyFirstL, XmlNode.modifyFirstN, htq, hch, hrest] at h
              subst h
              simp [XmlNode.extendsL, extendsN_refl, ihrest rest2 hrest]
          | none =>
              simp [XmlNode.modifyFirstL, XmlNode.modifyFirstN, htq, hch, hrest] at h
  · intro d rest ihrest ns2 h
    cases hrest : XmlNode.modifyFirstL q f rest with
    | some rest2 =>
        simp [XmlNode.modifyFirstL, XmlNode.modifyFirstN, hrest] at h
        subst h
        simp [XmlNode.extendsL, XmlNode.extendsN, ihrest rest2 hrest]
    | none =>
        simp [XmlNode.modifyFirstL, XmlNode.modifyFirstN, hrest] at h

theorem patchSettings_extends (s e : XmlNode) :
    XmlNode.extendsN e (patchSettings s e) = true := by
  cases e with
  | element t a ch =>
      rw [patchSettings]
      cases hm : XmlNode.modifyFirstL "servers" (XmlNode.appendChild s) ch with
      | some ch2 =>
          simp [XmlNode.extendsN]
          exact modifyFirstL_extendsL "servers" (XmlNode.appendChild s)
            (appendChild_extends s) ch ch2 hm
      | none =>
          simp [XmlNode.extendsN, extendsL_append_left]
  | text d => simp [patchSettings, XmlNode.extendsN]

theorem countTag_append (q : String) (xs ys : List XmlNode) :
    XmlNode.countTag q (xs ++ ys) = XmlNode.countTag q xs + XmlNode.countTag q ys := by
  simp [XmlNode.countTag, gebtnL_append]

theorem countTag_cons (q : String) (x : XmlNode) (xs : List XmlNode) :
    XmlNode.countTag q (x :: xs) = XmlNode.countTag q [x] + XmlNode.countTag q xs := by
  simp [XmlNode.countTag, XmlNode.gebtnL]

theorem countTag_element (r t : String) (a : List (String × String)) (ch : List XmlNode) :
    XmlNode.countTag r [XmlNode.element t a ch] =
      (if t = r then 1 else 0) + XmlNode.countTag r ch := by
  by_cases htr : t = r
  · simp [XmlNode.countTag, XmlNode.gebtnL, XmlNode.gebtnN, htr]
    omega
  · simp [XmlNode.countTag, XmlNode.gebtnL, XmlNode.gebtnN, htr]

theorem countTag_text (r d : String) :
    XmlNode.countTag r [XmlNode.text d] = 0 := by
  simp [XmlNode.countTag, XmlNode.gebtnL, XmlNode.gebtnN]

theorem modifyFirstL_countTag (q r : String) (f : XmlNode → XmlNode) (k : Nat)
    (hf : ∀ a ch, XmlNode.countTag r [f (XmlNode.element q a ch)] =
      XmlNode.countTag r [XmlNode.element q a ch] + k) :
    ∀ ns, ∀ ns2, XmlNode.modifyFirstL q f ns = some ns2 →
      XmlNode.countTag r ns2 = XmlNode.countTag r ns + k := by
  apply nodeList_induction
    (P := fun ns => ∀ ns2, XmlNode.modifyFirstL q f ns = some ns2 →
      XmlNode.countTag r ns2 = XmlNode.countTag r ns + k)
  · intro ns2 h
    simp [XmlNode.modifyFirstL] at h
  · intro t a ch rest ihch ihrest ns2 h
    by_cases htq : t = q
    · subst htq
      simp [XmlNode.modifyFirstL, XmlNode.modifyFirstN] at h
      subst h
      rw [countTag_cons, countTag_cons r (XmlNode.element t a ch) rest, hf]
      omega
    · cases hch : XmlNode.modifyFirstL q f ch with
      | some ch2 =>
          simp [XmlNode.modifyFirstL, XmlNode.modifyFirstN, htq, hch] at h
          subst h
          rw [countTag_cons, countTag_cons r (XmlNode.element t a ch) rest,
            countTag_element, countTag_element]
          have h2 := ihch ch2 hch
          omega
      | none =>
          cases hrest : XmlNode.modifyFirstL q f rest with
          | some rest2 =>
              simp [XmlNode.modifyFirstL, XmlNode.modifyFirstN, htq, hch, hrest] at h
              subst h
              rw [countTag_cons, countTag_cons r (XmlNode.element t a ch) rest]
              have h2 := ihrest rest2 hrest
              omega
          | none =>
              simp [XmlNode.modifyFirstL, XmlNode.modifyFirstN, htq, hch, hrest] at h
  · intro d rest ihrest ns2 h
    cases hrest : XmlNode.modifyFirstL q f rest with
    | some rest2 =>
        simp [XmlNode.modifyFirstL, XmlNode.modifyFirstN, hrest] at h
        subst h
        rw [countTag_cons, countTag_cons r (XmlNode.text d) rest]
        have h2 := ihrest rest2 hrest
        omega
    | none =>
        simp [XmlNode.modifyFirstL, XmlNode.modifyFirstN, hrest] at h

theorem modifyFirstL_keeps_tag (q : String) (f : XmlNode → XmlNode)
    (hf : ∀ a ch, ∃ a2 ch2, f (XmlNode.element q a ch) = XmlNode.element q a2 ch2) :
    ∀ ns, ∀ ns2, XmlNode.modifyFirstL q f ns = some ns2 →
      XmlNode.gebtnL q ns2 ≠ [] := by
  apply nodeList_induction
    (P := fun ns => ∀ ns2, XmlNode.modifyFirstL q f ns = some ns2 →
      XmlNode.gebtnL q ns2 ≠ [])
  · intro ns2 h
    simp [XmlNode.modifyFirstL] at h
  · intro t a ch rest ihch ihrest ns2 h
    by_cases htq : t = q
    · subst htq
      simp [XmlNode.modifyFirstL, XmlNode.modifyFirstN] at h
      subst h
      obtain ⟨a2, ch2, hf2⟩ := hf a ch
      simp [XmlNode.gebtnL, hf2, XmlNode.gebtnN]
    · cases hch : XmlNode.modifyFirstL q f ch with
      | some ch2 =>
          simp [XmlNode.modifyFirstL, XmlNode.modifyFirstN, htq, hch] at h
          subst h
          have h2 := ihch ch2 hch
          simp [XmlNode.gebtnL, XmlNode.gebtnN, htq, h2]
      | none =>
          cases hrest : XmlNode.modifyFirstL q f rest with
          | some rest2 =>
              simp [XmlNode.modifyFirstL, XmlNode.modifyFirstN, htq, hch, hrest] at h
              subst h
              have h2 := ihrest rest2 hrest
              simp [XmlNode.gebtnL, XmlNode.gebtnN, htq, h2]
          | none =>
              simp [XmlNode.modifyFirstL, XmlNode.modifyFirstN, htq, hch, hrest] at h
  · intro d rest ihrest ns2 h
    cases hrest : XmlNode.modifyFirstL q f rest with
    | some rest2 =>
        simp [XmlNode.modifyFirstL, XmlNode.modifyFirstN, hrest] at h
        subst h
        have h2 := ihrest rest2 hrest
        simp [XmlNode.gebtnL, XmlNode.gebtnN, h2]
    | none =>
        simp [XmlNode.modifyFirstL, XmlNode.modifyFirstN, hrest] at h

theorem modifyFirstL_appendChild_first (q : String) (c : XmlNode)
    (hc : XmlNode.gebtnN q c = []) :
    ∀ ns, ∀ m ms, XmlNode.gebtnL q ns = m :: ms →
      ∃ ns2, XmlNode.modifyFirstL q (XmlNode.appendChild c) ns = some ns2 ∧
        XmlNode.gebtnL q ns2 = XmlNode.appendChild c m :: ms := by
  apply nodeList_induction
    (P := fun ns => ∀ m ms, XmlNode.gebtnL q ns = m :: ms →
      ∃ ns2, XmlNode.modifyFirstL q (XmlNode.appendChild c) ns = some ns2 ∧
        XmlNode.gebtnL q ns2 = XmlNode.appendChild c m :: ms)
  · intro m ms hm
    simp [XmlNode.gebtnL] at hm
  · intro t a ch rest ihch ihrest m ms hm
    by_cases htq : t = q
    · subst htq
      simp [XmlNode.gebtnL, XmlNode.gebtnN] at hm
      obtain ⟨rfl, rfl⟩ := hm
      refine ⟨XmlNode.element t a (ch ++ [c]) :: rest,
        by simp [XmlNode.modifyFirstL, XmlNode.modifyFirstN, XmlNode.appendChild], ?_⟩
      simp [XmlNode.gebtnL, XmlNode.gebtnN, gebtnL_append, hc, XmlNode.appendChild]
    · rw [XmlNode.gebtnL, XmlNode.gebtnN] at hm
      simp [htq] at hm
      cases hchm : XmlNode.gebtnL q ch with
      | cons m1 ms1 =>
          rw [hchm, List.cons_append] at hm
          injection hm with hm1 hm2
          subst hm1
          subst hm2
          obtain ⟨ch2, hch2, hg⟩ := ihch _ _ hchm
          refine ⟨XmlNode.element t a ch2 :: rest,
            by simp [XmlNode.modifyFirstL, XmlNode.modifyFirstN, htq, hch2], ?_⟩
          simp [XmlNode.gebtnL, XmlNode.gebtnN, htq, hg]
      | nil =>
          rw [hchm, List.nil_append] at hm
          obtain ⟨rest2, hrest2, hg⟩ := ihrest _ _ hm
          have hchnone : XmlNode.modifyFirstL q (XmlNode.appendChild c) ch = none :=
            (modifyFirstL_eq_none_iff q (XmlNode.appendChild c) ch).2 hchm
          refine ⟨XmlNode.element t a ch :: rest2,
            by simp [XmlNode.modifyFirstL, XmlNode.modifyFirstN, htq, hchnone,
              hrest2], ?_⟩
          simp [XmlNode.gebtnL, XmlNode.gebtnN, htq, hchm, hg]
  · intro d rest ihrest m ms hm
    rw [XmlNode.gebtnL, XmlNode.gebtnN, List.nil_append] at hm
    obtain ⟨rest2, hrest2, hg⟩ := ihrest _ _ hm
    refine ⟨XmlNode.text d :: rest2,
      by simp [XmlNode.modifyFirstL, XmlNode.modifyFirstN, hrest2], ?_⟩
    simp [XmlNode.gebtnL, XmlNode.gebtnN, hg]

theorem run_output_some (env : String → Option String) (input : Option (List XmlNode))
    (doc2 : List XmlNode) (h : (run env input).output = some doc2) :
    ∃ gate u p doc, env "TRAVIS_SECURE_ENV_VARS" = some gate ∧ gate ≠ "false" ∧
      env "SONATYPE_USERNAME" = some u ∧ env "SONATYPE_PASSWORD" = some p ∧
      input = some doc ∧
      XmlNode.modifyFirstL "settings" (patchSettings (sonatypeServerNode u p)) doc
        = some doc2 := by
  unfold run at h
  split at h
  · simp at h
  · rename_i gate hT
    split at h
    · simp at h
    · rename_i hg
      split at h
      · simp at h
      · rename_i doc
        split at h
        · simp at h
        · split at h
          · simp at h
          · rename_i u hU
            split at h
            · simp at h
            · rename_i p hP
              split at h
              · rename_i d2 hM
                simp at h
                subst h
                exact ⟨gate, u, p, doc, hT, hg, hU, hP, rfl, hM⟩
              · simp at h

theorem settingsPath_ne_outputPath (homedir : String) :
    settingsPath homedir ≠ outputPath homedir := by
  intro hEq
  have h2 := congrArg String.length hEq
  simp [settingsPath, outputPath, String.length_append] at h2
  exact absurd h2 (by decide)

theorem runFS_eq (env : String → Option String) (homedir : String)
    (parse : String → Option (List XmlNode)) (serialize : List XmlNode → String)
    (fs : String → Option String) :
    runFS env homedir parse serialize fs =
      match (run env ((fs (settingsPath homedir)).bind parse)).output with
      | some doc2 =>
          (fun path => if path = outputPath homedir then some (serialize doc2)
            else fs path,
           run env ((fs (settingsPath homedir)).bind parse))
      | none => (fs, run env ((fs (settingsPath homedir)).bind parse)) := rfl

/-- C2: when `TRAVIS_SECURE_ENV_VARS` equals `"false"`, the program prints
exactly the one skip line, exits with code 0, does not read the input file,
and writes no file — for every state of the input file and the filesystem,
and every state of the SONATYPE variables. -/
theorem C2_skip_path (env : String → Option String) (input : Option (List XmlNode))
    (homedir : String) (parse : String → Option (List XmlNode))
    (serialize : List XmlNode → String) (fs : String → Option String)
    (h : env "TRAVIS_SECURE_ENV_VARS" = some "false") :
    run env input =
      ⟨["no secure env vars available, skipping deployment"], 0, false, none⟩ ∧
    (runFS env homedir parse serialize fs).1 = fs ∧
    (runFS env homedir parse serialize fs).2 =
      ⟨["no secure env vars available, skipping deployment"], 0, false, none⟩ := by
  have key : ∀ inp, run env inp =
      ⟨["no secure env vars available, skipping deployment"], 0, false, none⟩ := by
    intro inp
    unfold run
    rw [h]
    simp
  refine ⟨key input, ?_, ?_⟩ <;> unfold runFS <;> rw [key]

/-- C2 witness: concrete skip run. -/
theorem C2_skip_path_witness :
    run envSkip (some docMinimal) =
      ⟨["no secure env vars available, skipping deployment"], 0, false, none⟩ :=
  (C2_skip_path envSkip (some docMinimal) "/home/u" (fun _ => none) (fun _ => "")
    (fun _ => none) (by simp [envSkip])).1

/-- C8 counterexample: with `TRAVIS_SECURE_ENV_VARS` unset and both secrets
set on a valid input, the run is fatal at the gate itself (`KeyError` on
line 27): the input file is never read (`readsInput = false`) and no output is
produced — the claim instead predicts execution proceeding past the gate with
a failure only at the secret reads. -/
theorem C8_counterexample :
    run envNoGate (some docMinimal) = ⟨[], 1, false, none⟩ ∧
    envNoGate "TRAVIS_SECURE_ENV_VARS" = none ∧
    envNoGate "SONATYPE_USERNAME" = some "u" ∧
    envNoGate "SONATYPE_PASSWORD" = some "p" := by
  refine ⟨?_, by simp [envNoGate], by simp [envNoGate], by simp [envNoGate]⟩
  unfold run
  have h : envNoGate "TRAVIS_SECURE_ENV_VARS" = none := by simp [envNoGate]
  rw [h]

/-- C8 (amended): a set value other than `"false"` proceeds past the gate (no
skip message, the input file is parsed); an unset variable is a fatal
`KeyError` at the gate read itself, before any file is touched. -/
theorem C8_gate_behaviour :
    (∀ env input gate, env "TRAVIS_SECURE_ENV_VARS" = some gate → gate ≠ "false" →
      (run env input).stdoutLines = [] ∧ (run env input).readsInput = true) ∧
    (∀ env input, env "TRAVIS_SECURE_ENV_VARS" = none →
      run env input = ⟨[], 1, false, none⟩) := by
  constructor
  · intro env input gate hT hg
    unfold run
    split
    · rename_i heq
      rw [hT] at heq
      exact Option.noConfusion heq
    · rename_i g2 heq
      rw [hT] at heq
      injection heq with heq2
      subst heq2
      rw [if_neg hg]
      constructor <;> (repeat' split) <;> rfl
  · intro env input hT
    unfold run
    rw [hT]

/-- C8 witness: a non-`"false"` gate value proceeds; an unset gate is fatal. -/
theorem C8_gate_behaviour_witness :
    ((run envAll (some docMinimal)).stdoutLines = [] ∧
      (run envAll (some docMinimal)).readsInput = true) ∧
    run envNoGate none = ⟨[], 1, false, none⟩ :=
  ⟨C8_gate_behaviour.1 envAll (some docMinimal) "true" (by simp [envAll]) (by simp),
   C8_gate_behaviour.2 envNoGate none (by simp [envNoGate])⟩

/-- C10: the run depends only on the three environment variables and the
parsed input: two environments agreeing on them produce identical traces (and
identical filesystem results on any filesystem). -/
theorem C10_deterministic (env1 env2 : String → Option String)
    (hT : env1 "TRAVIS_SECURE_ENV_VARS" = env2 "TRAVIS_SECURE_ENV_VARS")
    (hU : env1 "SONATYPE_USERNAME" = env2 "SONATYPE_USERNAME")
    (hP : env1 "SONATYPE_PASSWORD" = env2 "SONATYPE_PASSWORD") :
    (∀ input, run env1 input = run env2 input) ∧
    (∀ homedir parse serialize fs,
      runFS env1 homedir parse serialize fs = runFS env2 homedir parse serialize fs) := by
  have key : ∀ input, run env1 input = run env2 input := by
    intro input
    unfold run
    rw [hT, hU, hP]
  exact ⟨key, fun homedir parse serialize fs => by unfold runFS; rw [key]⟩

/-- C10 witness: an unrelated extra environment variable does not change the
trace. -/
theorem C10_deterministic_witness :
    run envAll (some docMinimal) = run envAllPlus (some docMinimal) :=
  (C10_deterministic envAll envAllPlus (by simp [envAll, envAllPlus])
    (by simp [envAll, envAllPlus]) (by simp [envAll, envAllPlus])).1 (some docMinimal)

/-- C6: with the gate not `"false"` and a SONATYPE secret missing, the run is
fatal (exit code 1) and no output file is produced; more generally, every
failing run (non-zero exit) produces no output file. -/
theorem C6_missing_secrets :
    (∀ env input, env "TRAVIS_SECURE_ENV_VARS" ≠ some "false" →
      (env "SONATYPE_USERNAME" = none ∨ env "SONATYPE_PASSWORD" = none) →
      (run env input).output = none ∧ (run env input).exitCode = 1) ∧
    (∀ env input, (run env input).exitCode ≠ 0 → (run env input).output = none) := by
  constructor
  · intro env input hT hUP
    unfold run
    split
    · exact ⟨rfl, rfl⟩
    · rename_i gate heq
      have hg : gate ≠ "false" := by
        rintro rfl
        exact hT heq
      rw [if_neg hg]
      split
      · exact ⟨rfl, rfl⟩
      · split
        · exact ⟨rfl, rfl⟩
        · rcases hUP with hU | hP
          · rw [hU]
            exact ⟨rfl, rfl⟩
          · split
            · exact ⟨rfl, rfl⟩
            · rw [hP]
              exact ⟨rfl, rfl⟩
  · intro env input
    unfold run
    (repeat' split) <;> simp

/-- C6 witness: missing `SONATYPE_USERNAME` with the gate set to `"true"`. -/
theorem C6_missing_secrets_witness :
    (run envNoUser (some docMinimal)).output = none ∧
    (run envNoUser (some docMinimal)).exitCode = 1 :=
  C6_missing_secrets.1 envNoUser (some docMinimal) (by simp [envNoUser])
    (Or.inl (by simp [envNoUser]))

/-- C1: with the gate passed and both secrets set, the new `server` element
carries exactly three children in order — `id` wrapping the single text node
`"ossrh"`, `username` wrapping the value of `SONATYPE_USERNAME`, `password`
wrapping the value of `SONATYPE_PASSWORD` — and is appended as the last child
of the `servers` container. -/
theorem C1_server_entry (env : String → Option String) (gate u p : String)
    (a b : List (String × String)) (cs rest : List XmlNode)
    (hT : env "TRAVIS_SECURE_ENV_VARS" = some gate) (hg : gate ≠ "false")
    (hU : env "SONATYPE_USERNAME" = some u) (hP : env "SONATYPE_PASSWORD" = some p) :
    run env (some [XmlNode.element "settings" a
        (XmlNode.element "servers" b cs :: rest)]) =
      ⟨[], 0, true, some [XmlNode.element "settings" a
        (XmlNode.element "servers" b (cs ++
          [XmlNode.element "server" []
            [XmlNode.element "id" [] [XmlNode.text "ossrh"],
             XmlNode.element "username" [] [XmlNode.text u],
             XmlNode.element "password" [] [XmlNode.text p]]]) :: rest)]⟩ := by
  unfold run
  rw [hT]
  simp [hg, hU, hP, XmlNode.gebtnL, XmlNode.gebtnN, XmlNode.modifyFirstL,
    XmlNode.modifyFirstN, patchSettings, sonatypeServerNode, XmlNode.appendChild]

/-- C1 witness: concrete run on a minimal document with a `servers` element. -/
theorem C1_server_entry_witness :
    run envAll (some [XmlNode.element "settings" []
        [XmlNode.element "servers" [] []]]) =
      ⟨[], 0, true, some [XmlNode.element "settings" []
        [XmlNode.element "servers" []
          [XmlNode.element "server" []
            [XmlNode.element "id" [] [XmlNode.text "ossrh"],
             XmlNode.element "username" [] [XmlNode.text "u"],
             XmlNode.element "password" [] [XmlNode.text "p"]]]]]⟩ :=
  C1_server_entry envAll "true" "u" "p" [] [] [] [] (by simp [envAll]) (by simp)
    (by simp [envAll]) (by simp [envAll])

/-- C9: after the gate, the `settings` element is the first match of
`getElementsByTagName("settings")`; when no `settings` element exists the run
is fatal (exit code 1, no output); when one exists and both secrets are set
the run succeeds. -/
theorem C9_settings_lookup (env : String → Option String) (gate : String)
    (doc : List XmlNode)
    (hT : env "TRAVIS_SECURE_ENV_VARS" = some gate) (hg : gate ≠ "false") :
    (XmlNode.gebtnL "settings" doc = [] →
      run env (some doc) = ⟨[], 1, true, none⟩) ∧
    (∀ u p, env "SONATYPE_USERNAME" = some u → env "SONATYPE_PASSWORD" = some p →
      XmlNode.gebtnL "settings" doc ≠ [] →
      ∃ doc2, run env (some doc) = ⟨[], 0, true, some doc2⟩) := by
  constructor
  · intro hS
    unfold run
    rw [hT]
    simp [hg, hS]
  · intro u p hU hP hS
    obtain ⟨d2, hd2⟩ : ∃ d2, XmlNode.modifyFirstL "settings"
        (patchSettings (sonatypeServerNode u p)) doc = some d2 := by
      cases hM : XmlNode.modifyFirstL "settings"
          (patchSettings (sonatypeServerNode u p)) doc with
      | none => exact absurd ((modifyFirstL_eq_none_iff _ _ _).1 hM) hS
      | some d2 => exact ⟨d2, rfl⟩
    obtain ⟨s, ss, hcons⟩ := List.exists_cons_of_ne_nil hS
    refine ⟨d2, ?_⟩
    unfold run
    rw [hT]
    simp [hg, hcons, hU, hP, hd2]

/-- C9 witness: a document with no `settings` element is a fatal run. -/
theorem C9_settings_lookup_witness :
    run envAll (some [XmlNode.element "other" [] []]) = ⟨[], 1, true, none⟩ :=
  (C9_settings_lookup envAll "true" [XmlNode.element "other" [] []]
    (by simp [envAll]) (by simp)).1 (by simp [XmlNode.gebtnL, XmlNode.gebtnN])

/-- C3 counterexample: on an input whose `settings` element has **no**
`servers` child but does have a `servers` element nested deeper, the program
appends the entry to that nested descendant and appends **no** new `servers`
element to `settings` (its child list still has the single `profiles` child,
and no `servers` child, after the run) — refuting the claim that the container
is located among the *children* of `settings` and created when no such child
exists. -/
theorem C3_counterexample :
    run envAll (some docNestedServers) =
      ⟨[], 0, true, some [XmlNode.element "settings" []
        [XmlNode.element "profiles" []
          [XmlNode.element "servers" [] [sonatypeServerNode "u" "p"]]]]⟩ ∧
    ([XmlNode.element "profiles" [] [XmlNode.element "servers" [] []]].filter
        (XmlNode.isElementWithTag "servers") = []) ∧
    ([XmlNode.element "profiles" []
        [XmlNode.element "servers" [] [sonatypeServerNode "u" "p"]]].filter
        (XmlNode.isElementWithTag "servers") = []) := by
  refine ⟨?_, by simp [XmlNode.isElementWithTag], by simp [XmlNode.isElementWithTag]⟩
  unfold run
  have hT : envAll "TRAVIS_SECURE_ENV_VARS" = some "true" := by simp [envAll]
  rw [hT]
  simp [envAll, docNestedServers, XmlNode.gebtnL, XmlNode.gebtnN,
    XmlNode.modifyFirstL, XmlNode.modifyFirstN, patchSettings, sonatypeServerNode,
    XmlNode.appendChild]

/-- C3 (amended): the container receiving the entry is the first `servers`
*descendant* of `settings` in document order; when none exists, exactly one
new `servers` element is created and appended as the last child of `settings`;
when some exist, the first is used (it receives the entry as last child) and
all later `servers` descendants are untouched. -/
theorem C3_servers_container (s : XmlNode) (a : List (String × String))
    (ch : List XmlNode) (hs : XmlNode.gebtnN "servers" s = []) :
    (XmlNode.gebtnL "servers" ch = [] →
      patchSettings s (XmlNode.element "settings" a ch) =
        XmlNode.element "settings" a
          (ch ++ [XmlNode.element "servers" [] [s]])) ∧
    (∀ m ms, XmlNode.gebtnL "servers" ch = m :: ms →
      ∃ ch2, patchSettings s (XmlNode.element "settings" a ch) =
          XmlNode.element "settings" a ch2 ∧
        XmlNode.gebtnL "servers" ch2 = XmlNode.appendChild s m :: ms) := by
  constructor
  · intro h0
    simp [patchSettings, (modifyFirstL_eq_none_iff "servers"
      (XmlNode.appendChild s) ch).2 h0]
  · intro m ms hm
    obtain ⟨ch2, hch2, hg⟩ := modifyFirstL_appendChild_first "servers" s hs ch m ms hm
    exact ⟨ch2, by simp [patchSettings, hch2], hg⟩

/-- C3 witness: both branches at concrete inputs. -/
theorem C3_servers_container_witness :
    patchSettings (sonatypeServerNode "u" "p") (XmlNode.element "settings" [] []) =
      XmlNode.element "settings" []
        [XmlNode.element "servers" [] [sonatypeServerNode "u" "p"]] ∧
    (∃ ch2, patchSettings (sonatypeServerNode "u" "p")
        (XmlNode.element "settings" [] [XmlNode.element "servers" [] []]) =
          XmlNode.element "settings" [] ch2 ∧
      XmlNode.gebtnL "servers" ch2 =
        XmlNode.appendChild (sonatypeServerNode "u" "p")
          (XmlNode.element "servers" [] []) :: []) :=
  ⟨(C3_servers_container (sonatypeServerNode "u" "p") [] []
      (by simp [XmlNode.gebtnN, XmlNode.gebtnL, sonatypeServerNode])).1
      (by simp [XmlNode.gebtnL]),
   (C3_servers_container (sonatypeServerNode "u" "p") []
      [XmlNode.element "servers" [] []]
      (by simp [XmlNode.gebtnN, XmlNode.gebtnL, sonatypeServerNode])).2
      (XmlNode.element "servers" [] []) []
      (by simp [XmlNode.gebtnL, XmlNode.gebtnN])⟩

/-- C4: the output document extends the input document — every original node,
text datum and attribute list is present, unchanged and in its original
position, with new material only appended at the end of child lists; and an
input whose `servers` block holds one `server` entry yields the same `servers`
element with two `server` children, the original unmodified first and the new
entry last. -/
theorem C4_frame :
    (∀ env doc doc2, (run env (some doc)).output = some doc2 →
      XmlNode.extendsL doc doc2 = true) ∧
    (∀ env gate u p a b srv rest,
      env "TRAVIS_SECURE_ENV_VARS" = some gate → gate ≠ "false" →
      env "SONATYPE_USERNAME" = some u → env "SONATYPE_PASSWORD" = some p →
      run env (some [XmlNode.element "settings" a
          (XmlNode.element "servers" b [srv] :: rest)]) =
        ⟨[], 0, true, some [XmlNode.element "settings" a
          (XmlNode.element "servers" b [srv, sonatypeServerNode u p] :: rest)]⟩) := by
  constructor
  · intro env doc doc2 h
    obtain ⟨gate, u, p, doc1, hT, hg, hU, hP, hin, hM⟩ :=
      run_output_some env (some doc) doc2 h
    injection hin with hin2
    subst hin2
    exact modifyFirstL_extendsL "settings" (patchSettings (sonatypeServerNode u p))
      (patchSettings_extends (sonatypeServerNode u p)) doc doc2 hM
  · intro env gate u p a b srv rest hT hg hU hP
    unfold run
    rw [hT]
    simp [hg, hU, hP, XmlNode.gebtnL, XmlNode.gebtnN, XmlNode.modifyFirstL,
      XmlNode.modifyFirstN, patchSettings, XmlNode.appendChild]

/-- C4 witness: a `servers` block with one entry gains a second, appended
last. -/
theorem C4_frame_witness :
    run envAll (some [XmlNode.element "settings" []
        [XmlNode.element "servers" [] [XmlNode.element "server" [] []]]]) =
      ⟨[], 0, true, some [XmlNode.element "settings" []
        [XmlNode.element "servers" []
          [XmlNode.element "server" [] [], sonatypeServerNode "u" "p"]]]⟩ :=
  C4_frame.2 envAll "true" "u" "p" [] [] (XmlNode.element "server" [] []) []
    (by simp [envAll]) (by simp) (by simp [envAll]) (by simp [envAll])

theorem countTag_server_entry (u p : String) :
    XmlNode.countTag "server" [sonatypeServerNode u p] = 1 := by
  simp [XmlNode.countTag, sonatypeServerNode, XmlNode.gebtnL, XmlNode.gebtnN]

theorem patchSettings_countTag (u p : String) (t0 : String)
    (a : List (String × String)) (ch : List XmlNode) :
    XmlNode.countTag "server"
      [patchSettings (sonatypeServerNode u p) (XmlNode.element t0 a ch)] =
    XmlNode.countTag "server" [XmlNode.element t0 a ch] + 1 := by
  rw [patchSettings]
  cases hm : XmlNode.modifyFirstL "servers"
      (XmlNode.appendChild (sonatypeServerNode u p)) ch with
  | some ch2 =>
      have hk : XmlNode.countTag "server" ch2 = XmlNode.countTag "server" ch + 1 := by
        apply modifyFirstL_countTag "servers" "server"
          (XmlNode.appendChild (sonatypeServerNode u p)) 1 ?_ ch ch2 hm
        intro a2 ch3
        rw [XmlNode.appendChild, countTag_element, countTag_element,
          countTag_append, countTag_server_entry]
        omega
      rw [countTag_element, countTag_element, hk]
      omega
  | none =>
      rw [countTag_element, countTag_element, countTag_append]
      have h1 : XmlNode.countTag "server" [XmlNode.element "servers" []
          [sonatypeServerNode u p]] = 1 := by
        rw [countTag_element, countTag_server_entry]
        simp
      omega

theorem patchSettings_keeps_tag (s : XmlNode) (q : String) :
    ∀ a ch, ∃ a2 ch2, patchSettings s (XmlNode.element q a ch) =
      XmlNode.element q a2 ch2 := by
  intro a ch
  rw [patchSettings]
  cases hm : XmlNode.modifyFirstL "servers" (XmlNode.appendChild s) ch with
  | some ch2 => exact ⟨a, ch2, rfl⟩
  | none => exact ⟨a, ch ++ [XmlNode.element "servers" [] [s]], rfl⟩

/-- C7: the insertion never deduplicates or replaces: every successful run
leaves exactly one more `server` element than the input had (whatever the
input, including inputs already holding an `ossrh` entry), and running the
transformation again on its own output succeeds and adds one further entry. -/
theorem C7_no_dedup (env : String → Option String) (doc doc2 : List XmlNode)
    (h : (run env (some doc)).output = some doc2) :
    XmlNode.countTag "server" doc2 = XmlNode.countTag "server" doc + 1 ∧
    ∃ doc3, (run env (some doc2)).output = some doc3 ∧
      XmlNode.countTag "server" doc3 = XmlNode.countTag "server" doc + 2 := by
  obtain ⟨gate, u, p, doc1, hT, hg, hU, hP, hin, hM⟩ :=
    run_output_some env (some doc) doc2 h
  injection hin with hin2
  subst hin2
  have hcount : ∀ d d2, XmlNode.modifyFirstL "settings"
      (patchSettings (sonatypeServerNode u p)) d = some d2 →
      XmlNode.countTag "server" d2 = XmlNode.countTag "server" d + 1 := by
    intro d d2 hMd
    exact modifyFirstL_countTag "settings" "server"
      (patchSettings (sonatypeServerNode u p)) 1
      (fun a2 ch2 => patchSettings_countTag u p "settings" a2 ch2) d d2 hMd
  have h1 := hcount doc doc2 hM
  have hpres : XmlNode.gebtnL "settings" doc2 ≠ [] :=
    modifyFirstL_keeps_tag "settings" (patchSettings (sonatypeServerNode u p))
      (fun a ch => patchSettings_keeps_tag (sonatypeServerNode u p) "settings" a ch)
      doc doc2 hM
  obtain ⟨doc3, hM3⟩ : ∃ d3, XmlNode.modifyFirstL "settings"
      (patchSettings (sonatypeServerNode u p)) doc2 = some d3 := by
    cases hM3 : XmlNode.modifyFirstL "settings"
        (patchSettings (sonatypeServerNode u p)) doc2 with
    | none => exact absurd ((modifyFirstL_eq_none_iff _ _ _).1 hM3) hpres
    | some d3 => exact ⟨d3, rfl⟩
  obtain ⟨s, ss, hcons⟩ := List.exists_cons_of_ne_nil hpres
  have h2 := hcount doc2 doc3 hM3
  refine ⟨h1, doc3, ?_, by omega⟩
  unfold run
  rw [hT]
  simp [hg, hcons, hU, hP, hM3]

/-- C7 witness: concrete run on a document already holding an `ossrh` entry. -/
theorem C7_no_dedup_witness :
    XmlNode.countTag "server"
        [XmlNode.element "settings" []
          [XmlNode.element "servers" []
            [sonatypeServerNode "u" "p", sonatypeServerNode "u" "p"]]] =
      XmlNode.countTag "server"
        [XmlNode.element "settings" []
          [XmlNode.element "servers" [] [sonatypeServerNode "u" "p"]]] + 1 ∧
    ∃ doc3, (run envAll (some [XmlNode.element "settings" []
        [XmlNode.element "servers" []
          [sonatypeServerNode "u" "p", sonatypeServerNode "u" "p"]]])).output =
        some doc3 ∧
      XmlNode.countTag "server" doc3 =
        XmlNode.countTag "server"
          [XmlNode.element "settings" []
            [XmlNode.element "servers" [] [sonatypeServerNode "u" "p"]]] + 2 :=
  C7_no_dedup envAll
    [XmlNode.element "settings" []
      [XmlNode.element "servers" [] [sonatypeServerNode "u" "p"]]]
    [XmlNode.element "settings" []
      [XmlNode.element "servers" []
        [sonatypeServerNode "u" "p", sonatypeServerNode "u" "p"]]]
    (by simp [run, envAll, XmlNode.gebtnL, XmlNode.gebtnN, XmlNode.modifyFirstL,
      XmlNode.modifyFirstN, patchSettings, sonatypeServerNode, XmlNode.appendChild])

/-- C5: on every run, the only path whose file can change is
`<home>/.m2/snapshot-settings.xml` (which, on success, is overwritten with the
serialized output document); in particular the input file
`<home>/.m2/settings.xml` is byte-identical before and after the run. -/
theorem C5_only_output_file (env : String → Option String) (homedir : String)
    (parse : String → Option (List XmlNode)) (serialize : List XmlNode → String)
    (fs : String → Option String) :
    (∀ path, path ≠ outputPath homedir →
      (runFS env homedir parse serialize fs).1 path = fs path) ∧
    (runFS env homedir parse serialize fs).1 (settingsPath homedir) =
      fs (settingsPath homedir) ∧
    (∀ doc2, (runFS env homedir parse serialize fs).2.output = some doc2 →
      (runFS env homedir parse serialize fs).1 (outputPath homedir) =
        some (serialize doc2)) := by
  have frame : ∀ path, path ≠ outputPath homedir →
      (runFS env homedir parse serialize fs).1 path = fs path := by
    intro path hp
    rw [runFS_eq]
    cases hout : (run env ((fs (settingsPath homedir)).bind parse)).output with
    | none => simp
    | some d => simp [hp]
  refine ⟨frame, frame _ (settingsPath_ne_outputPath homedir), ?_⟩
  intro doc2 hout
  rw [runFS_eq] at hout ⊢
  cases h2 : (run env ((fs (settingsPath homedir)).bind parse)).output with
  | none =>
      rw [h2] at hout
      simp [h2] at hout
  | some d =>
      rw [h2] at hout
      simp [h2] at hout
      subst hout
      simp

/-- C5 witness: concrete frame instance — an unrelated path is untouched. -/
theorem C5_only_output_file_witness :
    (runFS envSkip "/home/u" (fun _ => none) (fun _ => "")
      (fun _ => none)).1 "/etc/passwd" = none :=
  (C5_only_output_file envSkip "/home/u" (fun _ => none) (fun _ => "")
    (fun _ => none)).1 "/etc/passwd" (by simp [outputPath])
